import Mathlib

set_option maxRecDepth 4000

/-
Verification of the road-segmentation model library:
stride padding utility, ResNet backbone blocks, JPU fusion module,
full FastFCN model variants and the training augmentation pipeline.

Tensors are modelled shallowly: a rank-4 NHWC shape record for the
shape-level reasoning, and a shape together with a total data function
(rational-valued) where pixel values matter.  All definitions follow the
Python source; definitions whose doc comment starts with
`Modelled from the spec:` stand for repository code whose body is missing
from the source tree (unimplemented stubs) and follow the design document
instead.
-/

/-- Rank-4 tensor shape in NHWC layout (batch, height, width, channels). -/
structure Shape4 where
  n : ℕ
  h : ℕ
  w : ℕ
  c : ℕ
  deriving DecidableEq, Repr

/-- Rank-4 tensor: a shape plus a total data function.  Out-of-range index
reads are harmless because every property below is stated relative to the
shape bounds or to a globally constrained data function. -/
structure Tensor4 where
  shape : Shape4
  data : ℕ → ℕ → ℕ → ℕ → ℚ

/-- Padding mode of tf.pad as used by pad_to_stride (REFLECT everywhere in
the repository; CONSTANT zero-fill kept for completeness). -/
inductive PadMode
  | reflect
  | constant0
  deriving DecidableEq, Repr

/-- Total amount pad_to_stride adds to one spatial dimension:
missing = target_stride - (dim % target_stride), exactly as computed on
lines 291 and 292 of baseline_fastfcn.py. -/
def missingFor (dim targetStride : ℕ) : ℕ := targetStride - dim % targetStride

/-- Amount padded before the features along one dimension:
missing // 2 (floor division, line 298/299). -/
def padBeforeFor (dim targetStride : ℕ) : ℕ := missingFor dim targetStride / 2

/-- Amount padded after the features along one dimension:
ceil(missing / 2) (line 298/299); over naturals ceil(m / 2) = (m + 1) / 2. -/
def padAfterFor (dim targetStride : ℕ) : ℕ := (missingFor dim targetStride + 1) / 2

/-- Source-axis index of tf.pad REFLECT for an axis of size dim padded with
pad elements before: output index j reads input index pad - j when j lies in
the left padding, j - pad in the interior, and mirrors about the last
element on the right. -/
def reflectIndex (dim pad j : ℕ) : ℕ :=
  if j < pad then pad - j
  else if j - pad < dim then j - pad
  else 2 * dim - 2 - (j - pad)

/-- Shape of the result of pad_to_stride: the two spatial dimensions grow by
padBefore + padAfter, batch and channel dimensions receive (0, 0) padding. -/
def padToStrideShape (s : Shape4) (targetStride : ℕ) : Shape4 :=
  ⟨s.n,
   s.h + padBeforeFor s.h targetStride + padAfterFor s.h targetStride,
   s.w + padBeforeFor s.w targetStride + padAfterFor s.w targetStride,
   s.c⟩

/-- pad_to_stride from baseline_fastfcn.py (lines 282-303): computes
missing_y and missing_x from the static spatial shape, splits each as
(missing // 2, ceil(missing / 2)) and applies tf.pad with paddings
((0,0), (pad_y), (pad_x), (0,0)) in the given mode. -/
def padToStride (inputs : Tensor4) (targetStride : ℕ) (mode : PadMode) : Tensor4 :=
  let pbY := padBeforeFor inputs.shape.h targetStride
  let pbX := padBeforeFor inputs.shape.w targetStride
  { shape := padToStrideShape inputs.shape targetStride
    data := fun n y x c =>
      match mode with
      | PadMode.reflect =>
          inputs.data n (reflectIndex inputs.shape.h pbY y) (reflectIndex inputs.shape.w pbX x) c
      | PadMode.constant0 =>
          if pbY ≤ y ∧ y < pbY + inputs.shape.h ∧ pbX ≤ x ∧ x < pbX + inputs.shape.w then
            inputs.data n (y - pbY) (x - pbX) c
          else 0 }

/-- Minimal non-negative padding needed so that (dim + pad) % s = 0; this is
the quantity the design document calls the required padding.  It equals the
code quantity missingFor except when dim is already a multiple of s, where
the minimal padding is 0 but the code computes a full extra stride s. -/
def requiredPad (dim s : ℕ) : ℕ := (s - dim % s) % s

/-- A concrete 1 x 32 x 32 x 3 image batch whose spatial dimensions are
exact multiples of 32. -/
def image32 : Tensor4 := ⟨⟨1, 32, 32, 3⟩, fun _ y x _ => (y + x : ℚ)⟩

/-- A concrete 1 x 33 x 47 x 3 image batch with positive spatial dimensions
that are not multiples of 32. -/
def image33 : Tensor4 := ⟨⟨1, 33, 47, 3⟩, fun _ y x c => (y * x + c : ℚ)⟩

/-- C1: the claim states that pad_to_stride is a no-op (zero added pixels)
on inputs whose spatial dimensions are already exact multiples of the
target stride.  The code instead computes missing = s - dim % s = s on
such inputs and pads a full extra stride: for a 1 x 32 x 32 x 3 input and
s = 32 it pads 16 pixels before and 16 after in each spatial dimension,
returning a 1 x 64 x 64 x 3 tensor, so the output shape differs from the
input shape. -/
theorem pad_to_stride_pads_full_stride_on_exact_multiple :
    missingFor 32 32 = 32 ∧
    padBeforeFor 32 32 = 16 ∧ padAfterFor 32 32 = 16 ∧
    (padToStride image32 32 PadMode.reflect).shape = ⟨1, 64, 64, 3⟩ ∧
    (padToStride image32 32 PadMode.reflect).shape ≠ image32.shape ∧
    requiredPad 32 32 = 0 := by
  decide

/-- For any dimension, padBefore + padAfter equals the full missing amount. -/
theorem padBeforeFor_add_padAfterFor (d s : ℕ) :
    padBeforeFor d s + padAfterFor d s = missingFor d s := by
  unfold padBeforeFor padAfterFor
  omega

/-- Adding the computed padding always lands on a multiple of the stride. -/
theorem padded_dim_multiple (d s : ℕ) (hs : 0 < s) :
    (d + padBeforeFor d s + padAfterFor d s) % s = 0 := by
  have hsum : padBeforeFor d s + padAfterFor d s = missingFor d s :=
    padBeforeFor_add_padAfterFor d s
  have hmod : d % s < s := Nat.mod_lt d hs
  have hdm := Nat.div_add_mod d s
  have h1 : d + padBeforeFor d s + padAfterFor d s = s * (d / s) + s := by
    unfold missingFor at hsum
    omega
  rw [h1]
  have h2 : s * (d / s) + s = s * (d / s + 1) := by ring
  rw [h2]
  exact Nat.mul_mod_right _ _

/-- C4: whenever the total padding required to reach the next multiple of s
is odd, the code splits it as pad_before = floor(total / 2) and
pad_after = floor(total / 2) + 1 = ceil(total / 2), so the extra pixel is
appended after the feature map; concretely for d = 33 and s = 32 the total
is 31, split as 15 before and 16 after. -/
theorem pad_to_stride_odd_split (d s : ℕ) (hs : 0 < s)
    (hodd : requiredPad d s % 2 = 1) :
    padBeforeFor d s = requiredPad d s / 2 ∧
    padAfterFor d s = requiredPad d s / 2 + 1 ∧
    padBeforeFor d s + padAfterFor d s = requiredPad d s ∧
    padAfterFor d s = padBeforeFor d s + 1 ∧
    requiredPad 33 32 = 31 ∧ padBeforeFor 33 32 = 15 ∧ padAfterFor 33 32 = 16 := by
  have hds : d % s ≠ 0 := by
    intro h0
    unfold requiredPad at hodd
    rw [h0, Nat.sub_zero, Nat.mod_self] at hodd
    exact absurd hodd (by decide)
  have hlt : s - d % s < s := Nat.sub_lt hs (Nat.pos_of_ne_zero hds)
  have hreq : requiredPad d s = s - d % s := Nat.mod_eq_of_lt hlt
  rw [hreq] at hodd
  unfold padBeforeFor padAfterFor missingFor
  rw [hreq]
  refine ⟨by omega, by omega, by omega, by omega, by decide, by decide, by decide⟩

/-- Witness for pad_to_stride_odd_split at d = 33, s = 32. -/
theorem pad_to_stride_odd_split_witness :
    0 < 32 ∧ requiredPad 33 32 % 2 = 1 ∧
    (padBeforeFor 33 32 = requiredPad 33 32 / 2 ∧
     padAfterFor 33 32 = requiredPad 33 32 / 2 + 1 ∧
     padBeforeFor 33 32 + padAfterFor 33 32 = requiredPad 33 32 ∧
     padAfterFor 33 32 = padBeforeFor 33 32 + 1 ∧
     requiredPad 33 32 = 31 ∧ padBeforeFor 33 32 = 15 ∧ padAfterFor 33 32 = 16) :=
  ⟨by decide, by decide, pad_to_stride_odd_split 33 32 (by decide) (by decide)⟩

/-- C10: for every input tensor with positive spatial dimensions and every
positive target stride, the output of pad_to_stride has height and width
that are exact multiples of the stride, while its batch and channel
dimensions equal those of the input. -/
theorem pad_to_stride_output_shape (t : Tensor4) (s : ℕ) (hs : 0 < s)
    (hh : 0 < t.shape.h) (hw : 0 < t.shape.w) :
    (padToStride t s PadMode.reflect).shape.h % s = 0 ∧
    (padToStride t s PadMode.reflect).shape.w % s = 0 ∧
    (padToStride t s PadMode.reflect).shape.n = t.shape.n ∧
    (padToStride t s PadMode.reflect).shape.c = t.shape.c := by
  refine ⟨?_, ?_, rfl, rfl⟩
  · exact padded_dim_multiple t.shape.h s hs
  · exact padded_dim_multiple t.shape.w s hs

/-- Witness for pad_to_stride_output_shape at the 1 x 33 x 47 x 3 input. -/
theorem pad_to_stride_output_shape_witness :
    0 < 32 ∧ 0 < image33.shape.h ∧ 0 < image33.shape.w ∧
    ((padToStride image33 32 PadMode.reflect).shape.h % 32 = 0 ∧
     (padToStride image33 32 PadMode.reflect).shape.w % 32 = 0 ∧
     (padToStride image33 32 PadMode.reflect).shape.n = image33.shape.n ∧
     (padToStride image33 32 PadMode.reflect).shape.c = image33.shape.c) :=
  ⟨by decide, by decide, by decide,
   pad_to_stride_output_shape image33 32 (by decide) (by decide) (by decide)⟩

/-- Elementwise ReLU layer (tf.keras.layers.ReLU). -/
def reluT (t : Tensor4) : Tensor4 :=
  { t with data := fun n y x c => max (t.data n y x c) 0 }

/-- Elementwise addition of two tensors (shape taken from the first). -/
def addT (a b : Tensor4) : Tensor4 :=
  { shape := a.shape, data := fun n y x c => a.data n y x c + b.data n y x c }

/-- BottleneckBlock from resnet.py lines 113-164: the six sub-layers of the
main branch.  Convolutions and batch normalizations carry learned
parameters, so they are modelled as arbitrary tensor transformations; the
fixed ReLU activations are modelled concretely by reluT. -/
structure BottleneckBlock where
  conv_in : Tensor4 → Tensor4
  batch_norm_in : Tensor4 → Tensor4
  conv_middle : Tensor4 → Tensor4
  batch_norm_middle : Tensor4 → Tensor4
  conv_out : Tensor4 → Tensor4
  batch_norm_out : Tensor4 → Tensor4

/-- BottleneckBlock.call (resnet.py lines 166-178): conv_in, batch norm,
ReLU, conv_middle, batch norm, ReLU, conv_out, batch norm, and the result
of the final batch normalization is returned directly.  The source performs
no shortcut addition and no final rectification here, and the layer that
its comment defers them to (ResNetLayer) is an unimplemented stub. -/
def BottleneckBlock.call (b : BottleneckBlock) (inputs : Tensor4) : Tensor4 :=
  let features := b.conv_in inputs
  let features := b.batch_norm_in features
  let features1 := reluT features
  let features := b.conv_middle features1
  let features := b.batch_norm_middle features
  let features2 := reluT features
  let features := b.conv_out features2
  let output := b.batch_norm_out features
  output

/-- Identity tensor transformation, realizable as a 1x1 convolution with an
identity kernel or a batch normalization with neutral statistics. -/
def idLayer : Tensor4 → Tensor4 := fun t => t

/-- A batch normalization instance subtracting one, realizable with
gamma = 1, moving mean = 0, beta = -1. -/
def bnMinusOne : Tensor4 → Tensor4 :=
  fun t => { t with data := fun n y x c => t.data n y x c - 1 }

/-- A concrete bottleneck block instance: identity convolutions and batch
normalizations except for the output batch normalization, which shifts by
-1. -/
def stubBlock : BottleneckBlock :=
  ⟨idLayer, idLayer, idLayer, idLayer, idLayer, bnMinusOne⟩

/-- The all-zero 1 x 4 x 4 x 64 input tensor. -/
def zeroInput : Tensor4 := ⟨⟨1, 4, 4, 64⟩, fun _ _ _ _ => 0⟩

/-- C2: the claim states that every bottleneck block ends with an
elementwise shortcut addition followed by a final rectification, so its
output would equal ReLU(main + shortcut) and in particular would be
nonnegative everywhere.  The code returns the output batch normalization
directly: for the concrete block instance above on the zero input the
output value at (0,0,0,0) is -1, which no tensor of the claimed shape
ReLU(main + shortcut) can produce. -/
theorem bottleneck_block_missing_residual_add :
    (BottleneckBlock.call stubBlock zeroInput).data 0 0 0 0 = -1 ∧
    ∀ mainBranch shortcut : Tensor4,
      0 ≤ (reluT (addT mainBranch shortcut)).data 0 0 0 0 := by
  constructor
  · simp [BottleneckBlock.call, stubBlock, idLayer, bnMinusOne, reluT, zeroInput]
  · intro a b
    simpa [reluT, addT] using le_max_right (a.data 0 0 0 0 + b.data 0 0 0 0) 0

/-- Spatial dimension after a padding-same convolution with the given
stride: ceil(dim / stride). -/
def convSameDim (dim stride : ℕ) : ℕ := (dim + stride - 1) / stride

/-- Shape after a Conv2D with padding same, given filter count and
stride. -/
def conv2dSameShape (s : Shape4) (filters stride : ℕ) : Shape4 :=
  ⟨s.n, convSameDim s.h stride, convSameDim s.w stride, filters⟩

/-- Spatial dimension after a padding-valid pooling window (assumes the
dimension is at least the pool size). -/
def poolValidDim (dim pool stride : ℕ) : ℕ := (dim - pool) / stride + 1

/-- Shape after MaxPooling2D with pool size 2x2 (default stride equal to
the pool size, padding valid). -/
def maxPool2Shape (s : Shape4) : Shape4 :=
  ⟨s.n, poolValidDim s.h 2 2, poolValidDim s.w 2 2, s.c⟩

/-- ResNetLayer (resnet.py lines 93-110): both the constructor body and
call are unimplemented stubs (pass), so calling the layer produces no
tensor; modelled as none. -/
def resNetLayerCallShape (_blocks _initialFeatures : ℕ) (_downsample : Bool)
    (_inputs : Shape4) : Option Shape4 := none

/-- Block counts of the ResNet-50 preset (resnet.py lines 71-79). -/
def resnet50Blocks : List ℕ := [3, 4, 6, 3]

/-- Block counts of the ResNet-101 preset (resnet.py lines 82-90). -/
def resnet101Blocks : List ℕ := [3, 4, 23, 3]

/-- ResNetBackbone.call (resnet.py lines 52-68): initial 7x7 stride-2
convolution with batch norm and ReLU, a 2x2 max pool, then the residual
layers applied in sequence with features = current_layer(features); the
single final features value is returned.  Because every residual layer is
an unimplemented stub the chain produces no tensor at all. -/
def resNetBackboneCallShape (blocks : List ℕ) (inputs : Shape4) : Option Shape4 :=
  let initialFeatures := conv2dSameShape inputs 64 2
  let features := maxPool2Shape initialFeatures
  blocks.enum.foldl
    (fun acc idxBlocks =>
      acc.bind (resNetLayerCallShape idxBlocks.2 (64 * 2 ^ idxBlocks.1) (decide (idxBlocks.1 > 0))))
    (some features)

/-- Modelled from the spec: a ResNet stage (ResNetLayer, whose body is
missing from the source) halves the spatial resolution at its first block
when downsample is set and outputs 4 * initialFeatures channels. -/
def specResNetLayerShape (initialFeatures : ℕ) (downsample : Bool)
    (inputs : Shape4) : Shape4 :=
  let stride := if downsample then 2 else 1
  ⟨inputs.n, convSameDim inputs.h stride, convSameDim inputs.w stride, 4 * initialFeatures⟩

/-- Modelled from the spec: successive stage output shapes starting from
stage index idx on the given stem features. -/
def specBackboneStagesAux (idx : ℕ) (blocks : List ℕ) (features : Shape4) : List Shape4 :=
  match blocks with
  | [] => []
  | _ :: rest =>
      let next := specResNetLayerShape (64 * 2 ^ idx) (decide (idx > 0)) features
      next :: specBackboneStagesAux (idx + 1) rest next

/-- Modelled from the spec: the per-stage output shapes of the intended
backbone, the stem (stride-2 same convolution plus 2x2 max pool) followed
by the stages, with downsampling from the second stage on. -/
def specBackboneStageShapes (blocks : List ℕ) (inputs : Shape4) : List Shape4 :=
  specBackboneStagesAux 0 blocks (maxPool2Shape (conv2dSameShape inputs 64 2))

/-- C3: the claim states that the backbone returns three feature maps of
spatial sizes 32x32, 16x16 and 8x8 for a [N,256,256,3] input.  The source
backbone returns a single features value, and since every residual layer is
an unimplemented stub it actually produces no tensor at all (first
conjunct).  The intended per-stage shapes, modelled from the spec, are
64, 32, 16 and 8, so the last three stages would indeed measure 32x32,
16x16 and 8x8 (second and third conjuncts). -/
theorem resnet_backbone_stub_returns_nothing (n : ℕ) :
    resNetBackboneCallShape resnet50Blocks ⟨n, 256, 256, 3⟩ = none ∧
    ((specBackboneStageShapes resnet50Blocks ⟨n, 256, 256, 3⟩).map fun s => (s.h, s.w)) =
      [(64, 64), (32, 32), (16, 16), (8, 8)] ∧
    (((specBackboneStageShapes resnet50Blocks ⟨n, 256, 256, 3⟩).drop 1).map fun s => (s.h, s.w)) =
      [(32, 32), (16, 16), (8, 8)] := by
  refine ⟨rfl, ?_, ?_⟩ <;>
    simp [specBackboneStageShapes, specBackboneStagesAux, specResNetLayerShape,
      conv2dSameShape, maxPool2Shape, convSameDim, poolValidDim, resnet50Blocks]

/-- UpSampling2D by an integer factor in both spatial dimensions. -/
def upSampleShape (k : ℕ) (s : Shape4) : Shape4 := ⟨s.n, s.h * k, s.w * k, s.c⟩

/-- tf.concat along the channel axis: requires matching batch and spatial
dimensions of all operands and sums the channel counts; a mismatch is a
runtime error, modelled as none. -/
def concatChannelShapes : List Shape4 → Option Shape4
  | [] => none
  | s :: rest =>
      rest.foldl
        (fun acc t => acc.bind fun a =>
          if a.n = t.n ∧ a.h = t.h ∧ a.w = t.w then
            some ⟨a.n, a.h, a.w, a.c + t.c⟩
          else none)
        (some s)

/-- Dilation rates of the four parallel JPU branches
(fastfcn.py line 172). -/
def jpuDilationRates : List ℕ := [1, 2, 4, 8]

/-- JPUInputBlock (fastfcn.py lines 258-302): 3x3 same convolution to the
feature width, batch norm, ReLU; spatial size preserved, channels set to
features. -/
def jpuInputBlockShape (features : ℕ) (s : Shape4) : Shape4 :=
  conv2dSameShape s features 1

/-- JPUSeparableBlock (fastfcn.py lines 305-357): 3x3 separable convolution
with padding same, stride 1 and the given dilation rate, batch norm, ReLU;
spatial size preserved, channels set to features. -/
def jpuSeparableBlockShape (features _dilationRate : ℕ) (s : Shape4) : Shape4 :=
  ⟨s.n, s.h, s.w, features⟩

/-- JPUModule.call (fastfcn.py lines 225-255): per-resolution input blocks,
upsampling of the stride-16 result by 2 and the stride-32 result by 4,
channel concatenation, then the four parallel separable dilated
convolutions whose outputs are concatenated along the channel axis. -/
def jpuModuleCallShape (features : ℕ) (inputsS8 inputsS16 inputsS32 : Shape4) :
    Option Shape4 :=
  let featuresS8 := jpuInputBlockShape features inputsS8
  let featuresS16 := jpuInputBlockShape features inputsS16
  let featuresS32 := jpuInputBlockShape features inputsS32
  let upsampledS16 := upSampleShape 2 featuresS16
  let upsampledS32 := upSampleShape 4 featuresS32
  (concatChannelShapes [featuresS8, upsampledS16, upsampledS32]).bind
    fun dilationInputs =>
      concatChannelShapes
        (jpuDilationRates.map fun rate => jpuSeparableBlockShape features rate dilationInputs)

/-- A padding-same convolution with stride 1 preserves the spatial size. -/
theorem convSameDim_one (d : ℕ) : convSameDim d 1 = d := by
  unfold convSameDim
  omega

/-- Evaluation of the JPU call on three feature maps whose spatial sizes
are in the exact 4 : 2 : 1 ratio. -/
theorem jpuModuleCallShape_eval (n f h8 w8 h16 w16 h32 w32 c8 c16 c32 : ℕ)
    (hh16 : h16 * 2 = h8) (hw16 : w16 * 2 = w8)
    (hh32 : h32 * 4 = h8) (hw32 : w32 * 4 = w8) :
    jpuModuleCallShape f ⟨n, h8, w8, c8⟩ ⟨n, h16, w16, c16⟩ ⟨n, h32, w32, c32⟩ =
      some ⟨n, h8, w8, 4 * f⟩ := by
  subst hh16 hw16
  simp [jpuModuleCallShape, jpuInputBlockShape, jpuSeparableBlockShape,
    upSampleShape, concatChannelShapes, conv2dSameShape, convSameDim_one,
    jpuDilationRates, hh32, hw32]
  omega

/-- C5: for any three input feature maps at strides 8/16/32 with spatial
sizes 32x32, 16x16 and 8x8 and a JPU module of channel width F, the module
upsamples the stride-16 branch by 2 and the stride-32 branch by 4 to the
common 32x32 size, concatenates, applies the four parallel separable
dilated convolutions with rates 1, 2, 4 and 8, and returns a feature map
of spatial size 32x32 with 4F channels. -/
theorem jpu_module_output_shape (n c8 c16 c32 f : ℕ) :
    jpuModuleCallShape f ⟨n, 32, 32, c8⟩ ⟨n, 16, 16, c16⟩ ⟨n, 8, 8, c32⟩ =
      some ⟨n, 32, 32, 4 * f⟩ ∧
    upSampleShape 2 (jpuInputBlockShape f ⟨n, 16, 16, c16⟩) = ⟨n, 32, 32, f⟩ ∧
    upSampleShape 4 (jpuInputBlockShape f ⟨n, 8, 8, c32⟩) = ⟨n, 32, 32, f⟩ ∧
    jpuDilationRates = [1, 2, 4, 8] := by
  refine ⟨jpuModuleCallShape_eval n f 32 32 16 16 8 8 c8 c16 c32 rfl rfl rfl rfl, ?_, ?_, rfl⟩ <;>
    simp [upSampleShape, jpuInputBlockShape, conv2dSameShape, convSameDim_one]

/-- tf.image.resize_with_crop_or_pad: the output spatial size is exactly
the requested target (center crop of any surplus, zero pad of any
deficit); batch and channel dimensions are preserved. -/
def resizeWithCropOrPadShape (s : Shape4) (targetH targetW : ℕ) : Shape4 :=
  ⟨s.n, targetH, targetW, s.c⟩

/-- A 1x1 valid convolution preserves the spatial size and sets the channel
count to the filter count. -/
def conv1x1Shape (s : Shape4) (filters : ℕ) : Shape4 := ⟨s.n, s.h, s.w, filters⟩

/-- EncoderHead.call (fastfcn.py lines 434-454): 1x1 compression to the
intermediate feature count, batch norm, ReLU, the context encoding module,
spatial dropout, and a final 1x1 convolution to a single logit channel.
The context encoding module (rs.models.encnet.ContextEncodingModule) is
missing from the source tree; modelled from the spec, it reweights the
spatial features channel-wise (shape preserved) and returns a per-sample
encoding of fixed length, here recorded as (batch, seLossFeatures). -/
def encoderHeadShape (intermediateFeatures seLossFeatures : ℕ) (inputs : Shape4) :
    Shape4 × (ℕ × ℕ) :=
  let compressed := conv1x1Shape inputs intermediateFeatures
  let weighted := compressed
  (conv1x1Shape weighted 1, (inputs.n, seLossFeatures))

/-- FCNHeadNoContext.call (fastfcn.py lines 513-531): 1x1 compression,
batch norm, ReLU, spatial dropout, 1x1 convolution to one logit channel. -/
def fcnHeadNoContextShape (intermediateFeatures : ℕ) (inputs : Shape4) : Shape4 :=
  conv1x1Shape (conv1x1Shape inputs intermediateFeatures) 1

/-- FCNHead.call (fastfcn.py lines 609-620): 1x1 compression, 3x3 same
convolution, spatial dropout, 1x1 convolution to one logit channel. -/
def fcnHeadShape (intermediateFeatures : ℕ) (inputs : Shape4) : Shape4 :=
  conv1x1Shape
    (conv2dSameShape (conv1x1Shape inputs intermediateFeatures) intermediateFeatures 1) 1

/-- Modelled from the spec: the three feature maps a backbone hands to the
JPU, namely the last feature maps of the second, third and fourth stage
(strides 8, 16 and 32); the source backbone cannot produce them because its
stages are unimplemented stubs. -/
def specBackboneLast3 (blocks : List ℕ) (inputs : Shape4) :
    Shape4 × Shape4 × Shape4 :=
  let stages := specBackboneStageShapes blocks inputs
  (stages.getD 1 ⟨0, 0, 0, 0⟩, stages.getD 2 ⟨0, 0, 0, 0⟩, stages.getD 3 ⟨0, 0, 0, 0⟩)

/-- FastFCN.call (fastfcn.py lines 69-92): pad the inputs to a multiple of
32 with REFLECT, take the last three backbone feature maps, fuse them with
the JPU, apply the Encoder head, and crop the logits with
resize_with_crop_or_pad to (input_height // 8, input_width // 8); returns
the cropped logits and the SE-loss features. -/
def fastFCNCallShape (backbone : Shape4 → Shape4 × Shape4 × Shape4)
    (jpuFeatures seLossFeatures : ℕ) (inputs : Shape4) :
    Option (Shape4 × (ℕ × ℕ)) :=
  let paddedInputs := padToStrideShape inputs 32
  let intermediateFeatures := backbone paddedInputs
  (jpuModuleCallShape jpuFeatures intermediateFeatures.1
      intermediateFeatures.2.1 intermediateFeatures.2.2).map
    fun upsampledFeatures =>
      let headOut := encoderHeadShape 512 seLossFeatures upsampledFeatures
      (resizeWithCropOrPadShape headOut.1 (inputs.h / 8) (inputs.w / 8), headOut.2)

/-- FastFCNNoContext.call (fastfcn.py lines 136-160): pad the inputs to a
multiple of 32 with REFLECT, take the last three backbone feature maps,
fuse them with the JPU, apply the no-context head, and crop the logits to
(input_height // 8, input_width // 8). -/
def fastFCNNoContextCallShape (backbone : Shape4 → Shape4 × Shape4 × Shape4)
    (jpuFeatures : ℕ) (inputs : Shape4) : Option Shape4 :=
  let paddedInputs := padToStrideShape inputs 32
  let intermediateFeatures := backbone paddedInputs
  (jpuModuleCallShape jpuFeatures intermediateFeatures.1
      intermediateFeatures.2.1 intermediateFeatures.2.2).map
    fun upsampledFeatures =>
      resizeWithCropOrPadShape (fcnHeadNoContextShape 512 upsampledFeatures)
        (inputs.h / 8) (inputs.w / 8)

/-- TestFastFCN.call (baseline_fastfcn.py lines 270-279): pad the inputs to
a multiple of 32 with REFLECT, take the last three backbone feature maps,
fuse them with the JPU, apply the FCN head with 256 intermediate features,
upsample the stride-8 logits by a factor of 8 and crop or pad to the full
input spatial size (input_height, input_width). -/
def testFastFCNCallShape (backbone : Shape4 → Shape4 × Shape4 × Shape4)
    (jpuFeatures : ℕ) (inputs : Shape4) : Option Shape4 :=
  let paddedInputs := padToStrideShape inputs 32
  let intermediateFeatures := backbone paddedInputs
  (jpuModuleCallShape jpuFeatures intermediateFeatures.1
      intermediateFeatures.2.1 intermediateFeatures.2.2).map
    fun upsampledFeatures =>
      let smallOutputs := fcnHeadShape 256 upsampledFeatures
      resizeWithCropOrPadShape (upSampleShape 8 smallOutputs) inputs.h inputs.w

/-- The padded spatial dimension is a positive multiple of 32. -/
theorem padded_dim_factor (d : ℕ) :
    ∃ k, 0 < k ∧ d + padBeforeFor d 32 + padAfterFor d 32 = 32 * k := by
  have hmul := padded_dim_multiple d 32 (by norm_num)
  have hsum := padBeforeFor_add_padAfterFor d 32
  have hmod : d % 32 < 32 := Nat.mod_lt d (by norm_num)
  have hdm := Nat.div_add_mod (d + padBeforeFor d 32 + padAfterFor d 32) 32
  refine ⟨(d + padBeforeFor d 32 + padAfterFor d 32) / 32, ?_, ?_⟩ <;>
    unfold missingFor at hsum <;> omega

/-- The spec-modelled backbone on an input with spatial sizes 32kh x 32kw
produces stride-8/16/32 feature maps of sizes 4kh x 4kw, 2kh x 2kw and
kh x kw with 512, 1024 and 2048 channels. -/
theorem specBackboneLast3_eval (n c kh kw : ℕ) (hkh : 0 < kh) (hkw : 0 < kw) :
    specBackboneLast3 resnet50Blocks ⟨n, 32 * kh, 32 * kw, c⟩ =
      (⟨n, 4 * kh, 4 * kw, 512⟩, ⟨n, 2 * kh, 2 * kw, 1024⟩, ⟨n, kh, kw, 2048⟩) := by
  simp [specBackboneLast3, specBackboneStageShapes, specBackboneStagesAux,
    specResNetLayerShape, conv2dSameShape, maxPool2Shape, convSameDim,
    poolValidDim, resnet50Blocks, List.getD]
  omega

/-- C7: the FastFCN context-encoding model on an input of shape
[1, 384, 384, 3] returns a logits tensor of shape [1, 48, 48, 1]
(the input is reflection-padded to 416 x 416, the head produces 52 x 52
stride-8 logits, and the final crop recovers 384 // 8 = 48), together with
the per-sample SE-loss encoding. -/
theorem fastfcn_output_shape_384 :
    fastFCNCallShape (specBackboneLast3 resnet50Blocks) 512 1 ⟨1, 384, 384, 3⟩ =
      some (⟨1, 48, 48, 1⟩, (1, 1)) := by
  decide

/-- C6 counterexample: the test variant does not return logits at the
eighth of the input resolution; on a [1, 384, 384, 3] input it upsamples
the stride-8 logits by 8 and crops to the full 384 x 384 input size. -/
theorem testfastfcn_output_full_resolution :
    testFastFCNCallShape (specBackboneLast3 resnet50Blocks) 512 ⟨1, 384, 384, 3⟩ =
      some ⟨1, 384, 384, 1⟩ ∧
    (⟨1, 384, 384, 1⟩ : Shape4) ≠ ⟨1, 48, 48, 1⟩ := by
  decide

/-- C6 amended: for every 3-channel input batch, all three variants pad the
input to a multiple of 32 before the backbone (reflection mode in the
source); the context-encoding and no-context variants return single-channel
logits cropped to (input_height // 8, input_width // 8), while the test
variant upsamples its stride-8 logits by 8 and returns single-channel
logits at the full input size (input_height, input_width). -/
theorem full_model_variants_output_shapes (n h w jf sef : ℕ) :
    fastFCNCallShape (specBackboneLast3 resnet50Blocks) jf sef ⟨n, h, w, 3⟩ =
      some (⟨n, h / 8, w / 8, 1⟩, (n, sef)) ∧
    fastFCNNoContextCallShape (specBackboneLast3 resnet50Blocks) jf ⟨n, h, w, 3⟩ =
      some ⟨n, h / 8, w / 8, 1⟩ ∧
    testFastFCNCallShape (specBackboneLast3 resnet50Blocks) jf ⟨n, h, w, 3⟩ =
      some ⟨n, h, w, 1⟩ ∧
    (padToStrideShape ⟨n, h, w, 3⟩ 32).h % 32 = 0 ∧
    (padToStrideShape ⟨n, h, w, 3⟩ 32).w % 32 = 0 := by
  obtain ⟨kh, hkh, ehp⟩ := padded_dim_factor h
  obtain ⟨kw, hkw, ewp⟩ := padded_dim_factor w
  have hpad : padToStrideShape ⟨n, h, w, 3⟩ 32 = ⟨n, 32 * kh, 32 * kw, 3⟩ := by
    simp only [padToStrideShape]
    rw [Shape4.mk.injEq]
    exact ⟨rfl, ehp, ewp, rfl⟩
  have hbb := specBackboneLast3_eval n 3 kh kw hkh hkw
  have hjpu := jpuModuleCallShape_eval n jf (4 * kh) (4 * kw) (2 * kh) (2 * kw)
    kh kw 512 1024 2048 (by ring) (by ring) (by ring) (by ring)
  refine ⟨?_, ?_, ?_, ?_, ?_⟩
  · simp only [fastFCNCallShape, hpad, hbb, hjpu, Option.map_some]
    simp [encoderHeadShape, conv1x1Shape, resizeWithCropOrPadShape]
  · simp only [fastFCNNoContextCallShape, hpad, hbb, hjpu, Option.map_some]
    simp [fcnHeadNoContextShape, conv1x1Shape, resizeWithCropOrPadShape]
  · simp only [testFastFCNCallShape, hpad, hbb, hjpu, Option.map_some]
    simp [fcnHeadShape, conv1x1Shape, conv2dSameShape, convSameDim_one,
      upSampleShape, resizeWithCropOrPadShape]
  · rw [hpad]
    exact Nat.mul_mod_right 32 kh
  · rw [hpad]
    exact Nat.mul_mod_right 32 kw

/-- Rank-3 per-sample tensor (height, width, channels); the augmentation
pipeline operates on single samples before batching. -/
structure Image3 where
  h : ℕ
  w : ℕ
  c : ℕ
  data : ℕ → ℕ → ℕ → ℚ

/-- Source index used by tf.image.resize with nearest-neighbour
interpolation and half-pixel centers: floor((j + 1/2) * inDim / outDim),
clamped to the valid range. -/
def nearestIdx (inDim outDim j : ℕ) : ℕ :=
  min ((2 * j + 1) * inDim / (2 * outDim)) (inDim - 1)

/-- tf.image.resize with method nearest to the target spatial size: every
output entry is a copy of some input entry of the same channel. -/
def resizeNearest (t : Image3) (targetH targetW : ℕ) : Image3 :=
  ⟨targetH, targetW, t.c,
   fun y x ch => t.data (nearestIdx t.h targetH y) (nearestIdx t.w targetW x) ch⟩

/-- tf.concat along the channel axis for two rank-3 tensors of equal
spatial size. -/
def concatChannels3 (a b : Image3) : Image3 :=
  ⟨a.h, a.w, a.c + b.c,
   fun y x ch => if ch < a.c then a.data y x ch else b.data y x (ch - a.c)⟩

/-- tf.image.flip_left_right: mirrors the width axis. -/
def flipLeftRight (t : Image3) : Image3 :=
  ⟨t.h, t.w, t.c, fun y x ch => t.data y (t.w - 1 - x) ch⟩

/-- tf.image.random_flip_left_right with the coin flip as an explicit
parameter. -/
def randomFlipLeftRight (doFlip : Bool) (t : Image3) : Image3 :=
  if doFlip then flipLeftRight t else t

/-- One counter-clockwise quarter rotation: spatial sizes are transposed
and out[y][x] reads in[x][w - 1 - y]. -/
def rotOnce (t : Image3) : Image3 :=
  ⟨t.w, t.h, t.c, fun y x ch => t.data x (t.w - 1 - y) ch⟩

/-- tf.image.rot90 applied k times. -/
def rot90 (k : ℕ) (t : Image3) : Image3 := rotOnce^[k] t

/-- A crop of the given target size at an explicit offset (the random
offsets drawn inside tf.image.random_crop are made parameters). -/
def cropAt (t : Image3) (offY offX targetH targetW : ℕ) : Image3 :=
  ⟨targetH, targetW, t.c, fun y x ch => t.data (offY + y) (offX + x) ch⟩

/-- Channel slice [:, :, lo:] of a rank-3 tensor. -/
def sliceChannelsFrom (t : Image3) (lo : ℕ) : Image3 :=
  ⟨t.h, t.w, t.c - lo, fun y x ch => t.data y x (ch + lo)⟩

/-- tf.round: nearest integer with ties broken towards the nearest even
integer (banker rounding). -/
def roundTF (x : ℚ) : ℚ :=
  if x - (⌊x⌋ : ℚ) = 1 / 2 then
    (if (2 : ℤ) ∣ ⌊x⌋ then ((⌊x⌋ : ℤ) : ℚ) else ((⌊x⌋ + 1 : ℤ) : ℚ))
  else ((round x : ℤ) : ℚ)

/-- Elementwise tf.round of a rank-3 tensor. -/
def roundImage (t : Image3) : Image3 :=
  { t with data := fun y x ch => roundTF (t.data y x ch) }

/-- Steps 2-5 of BaselineFCNExperiment._augment_sample
(baseline_fastfcn.py lines 156-186) with every random draw an explicit
parameter: the mask is resized to the drawn scale target with
nearest-neighbour interpolation, concatenated to the scaled image so that
the same geometric transformations apply to both, jointly flipped, rotated
by quarter turns and cropped to the training size; the mask channels
[:, :, 3:] are sliced off and rounded back to hard labels.  The image
branch (optional Gaussian blur followed by bilinear resize) only produces
the first three channels of the concatenated tensor and is passed in here
as the already-scaled image scaledImage. -/
def augmentedMask (scaledImage mask : Image3) (scaledH scaledW : ℕ)
    (doFlip : Bool) (numRotations offY offX targetH targetW : ℕ) : Image3 :=
  let scaledMask := resizeNearest mask scaledH scaledW
  let concatenatedSample := concatChannels3 scaledImage scaledMask
  let flippedSample := randomFlipLeftRight doFlip concatenatedSample
  let rotatedSample := rot90 numRotations flippedSample
  let croppedSample := cropAt rotatedSample offY offX targetH targetW
  let outputMask := sliceChannelsFrom croppedSample 3
  roundImage outputMask

/-- tf.round maps 0 to 0 and 1 to 1. -/
theorem roundTF_of_binary (q : ℚ) (hq : q = 0 ∨ q = 1) :
    roundTF q = 0 ∨ roundTF q = 1 := by
  rcases hq with h | h <;> subst h
  · left
    norm_num [roundTF]
  · right
    norm_num [roundTF]

/-- Quarter rotations permute spatial positions, so a pointwise property of
one channel is preserved. -/
theorem rot90_pointwise (p : ℚ → Prop) (k : ℕ) (ch : ℕ) :
    ∀ t : Image3, (∀ y x, p (t.data y x ch)) →
      ∀ y x, p ((rot90 k t).data y x ch) := by
  induction k with
  | zero =>
      intro t hp y x
      simpa [rot90] using hp y x
  | succ m ih =>
      intro t hp y x
      have hstep : ∀ y x, p ((rotOnce t).data y x ch) := by
        intro y x
        exact hp x (t.w - 1 - y)
      have : rot90 (m + 1) t = rot90 m (rotOnce t) := by
        simp [rot90, Function.iterate_succ_apply]
      rw [this]
      exact ih (rotOnce t) hstep y x

/-- C8: if every entry of the input mask is 0 or 1 then, for every random
draw of the augmentation pipeline (arbitrary already-scaled image, scale
target, flip, quarter-rotation count and crop position), every entry of
the output mask is 0 or 1: nearest-neighbour resizing only copies mask
values through the geometric transformations, and the cropped mask is
rounded before being returned. -/
theorem augmented_mask_binary (scaledImage mask : Image3)
    (hc : scaledImage.c = 3)
    (hmask : ∀ y x ch, mask.data y x ch = 0 ∨ mask.data y x ch = 1)
    (scaledH scaledW : ℕ) (doFlip : Bool)
    (numRotations offY offX targetH targetW : ℕ) :
    ∀ y x ch,
      (augmentedMask scaledImage mask scaledH scaledW doFlip numRotations
        offY offX targetH targetW).data y x ch = 0 ∨
      (augmentedMask scaledImage mask scaledH scaledW doFlip numRotations
        offY offX targetH targetW).data y x ch = 1 := by
  intro y x ch
  have hch : ¬ (ch + 3 < 3) := by omega
  have hconcat : ∀ y x,
      (concatChannels3 scaledImage (resizeNearest mask scaledH scaledW)).data y x (ch + 3) = 0 ∨
      (concatChannels3 scaledImage (resizeNearest mask scaledH scaledW)).data y x (ch + 3) = 1 := by
    intro y x
    simp only [concatChannels3, resizeNearest, hc, hch, if_false, Nat.add_sub_cancel]
    exact hmask _ _ _
  have hflip : ∀ y x,
      (randomFlipLeftRight doFlip
        (concatChannels3 scaledImage (resizeNearest mask scaledH scaledW))).data y x (ch + 3) = 0 ∨
      (randomFlipLeftRight doFlip
        (concatChannels3 scaledImage (resizeNearest mask scaledH scaledW))).data y x (ch + 3) = 1 := by
    cases doFlip
    · simpa [randomFlipLeftRight] using hconcat
    · intro y x
      simp only [randomFlipLeftRight, if_true, flipLeftRight]
      exact hconcat _ _
  have hrot := rot90_pointwise (fun q => q = 0 ∨ q = 1) numRotations (ch + 3) _ hflip
  simp only [augmentedMask, cropAt, sliceChannelsFrom, roundImage]
  exact roundTF_of_binary _ (hrot _ _)

/-- A concrete 4 x 4 x 3 already-scaled image with non-binary values. -/
def witnessScaledImage : Image3 := ⟨4, 4, 3, fun _ _ _ => (1 : ℚ) / 2⟩

/-- A concrete all-ones 4 x 4 x 1 binary mask. -/
def witnessMask : Image3 := ⟨4, 4, 1, fun _ _ _ => 1⟩

/-- Witness for augmented_mask_binary on the concrete mask with a flip,
three quarter rotations and a 2 x 2 crop. -/
theorem augmented_mask_binary_witness :
    witnessScaledImage.c = 3 ∧
    (∀ y x ch, witnessMask.data y x ch = 0 ∨ witnessMask.data y x ch = 1) ∧
    ((augmentedMask witnessScaledImage witnessMask 4 4 true 3 0 0 2 2).data 0 0 0 = 0 ∨
     (augmentedMask witnessScaledImage witnessMask 4 4 true 3 0 0 2 2).data 0 0 0 = 1) :=
  ⟨rfl, fun _ _ _ => Or.inr rfl,
   augmented_mask_binary witnessScaledImage witnessMask rfl
     (fun _ _ _ => Or.inr rfl) 4 4 true 3 0 0 2 2 0 0 0⟩
